import Mathlib

/-!
Verification of the bearblog admin module (`blogs/admin.py`).

The module configures a back-office panel: computed display columns for the
`Blog`, `UserSettings` and `Hit` list views, and two bulk actions on selected
`Blog` records (`block_blog` and `validate_domains`).  This development embeds
the record types, the computed-column renderers and the two bulk actions as
pure Lean functions over an explicit record-store state, and proves the
documented properties about them.

Conventions of the embedding:
  * Django's record store is a `DB` structure carrying the `User` and `Blog`
    tables; bulk actions thread it explicitly and return it together with the
    list of emitted status lines and a flag telling whether an uncaught
    exception escaped the loop.
  * The external reachability checker `check_connection` is an oracle
    `Blog → CheckResult` with the three outcomes the caller distinguishes:
    a boolean result, the caught `TooManyRedirects` condition, and any other
    (uncaught) failure.
  * Persistence (`user.save()`) may fail; an oracle `Nat → Bool` says, per
    user id, whether the save succeeds.  A failing save raises and aborts the
    remaining batch, mirroring the absence of any exception handler.
  * Django's `format_html`/`format_html_join` escape every interpolated
    argument (already-safe fragments excepted); the embedding applies
    `escape` exactly where the framework would and builds the final markup by
    string concatenation.
-/

set_option maxHeartbeats 1000000

/-- The character `&`. -/
def ampChar : Char := Char.ofNat 38

/-- The character `<`. -/
def ltChar : Char := Char.ofNat 60

/-- The character `>`. -/
def gtChar : Char := Char.ofNat 62

/-- The double-quote character. -/
def dqChar : Char := Char.ofNat 34

/-- The apostrophe (single-quote) character. -/
def aposChar : Char := Char.ofNat 39

/-- The double-quote character as a one-character string. -/
def dq : String := String.singleton dqChar

/-- The single-quote character as a one-character string. -/
def squo : String := String.singleton aposChar

/-- A `django.contrib.auth.models.User` row, restricted to the fields the
admin module reads or writes (`is_active`, the identity used by `str(user)`,
and the linked `UserSettings` primary key reached via `user.settings.id`). -/
structure User where
  id : Nat
  settings_id : Nat
  email : String
  is_active : Bool
deriving Repr, DecidableEq

/-- A `blogs.models.Blog` row, restricted to the fields the admin module
uses: `title`, `subdomain`, the optional custom `domain` (`none` models a
NULL/unset value, `some ""` an empty string) and the owning user's id. -/
structure Blog where
  id : Nat
  title : String
  subdomain : String
  domain : Option String
  user_id : Nat
deriving Repr, DecidableEq

/-- A `blogs.models.Post` row, restricted to what `HitAdmin.post_link` and
the `posts_count` annotation need. -/
structure Post where
  pk : Nat
  title : String
  blog_id : Nat
deriving Repr, DecidableEq

/-- The record store threaded through the bulk actions: the `User` and
`Blog` tables. -/
structure DB where
  users : List User
  blogs : List Blog
deriving Repr, DecidableEq

/-- Python truthiness of an optional string (`if not obj.domain`):
`None` and the empty string are falsy. -/
def pyTruthy : Option String → Bool
  | none => false
  | some s => !(s == "")

/-- Python `f`-string rendering of an optional string: `None` prints as the
word `None`, a string prints verbatim. -/
def domainRepr : Option String → String
  | none => "None"
  | some d => d

/-- `django.utils.html.escape` on a single character: the five
markup-significant characters are replaced by entities, everything else is
kept. -/
def escapeChar (c : Char) : String :=
  if c = ampChar then "&amp;"
  else if c = ltChar then "&lt;"
  else if c = gtChar then "&gt;"
  else if c = dqChar then "&quot;"
  else if c = aposChar then "&#x27;"
  else String.singleton c

/-- `django.utils.html.escape` over the character list of a string. -/
def escapeCore : List Char → List Char
  | [] => []
  | c :: cs => (escapeChar c).data ++ escapeCore cs

/-- `django.utils.html.escape`: entity-encode `& < > " '`. -/
def escape (s : String) : String := String.mk (escapeCore s.data)

/-- Modelled from the spec: `root` from `blogs.helpers` is not under `src/`;
the spec says only that the subdomain column links to
`http://<subdomain-host>`.  We model the host as the subdomain under the
platform apex domain. -/
def root (subdomain : String) : String := subdomain ++ ".bearblog.dev"

/-- Modelled from the spec: Django's `reverse('admin:blogs_blog_change', ...)`
is framework code outside `src/`; the admin site is mounted at
`/mothership/` (the module hardcodes that prefix in `HitAdmin.post_link`),
so the edit page of a blog lives at the standard admin change URL. -/
def reverse_blog_change (pk : Nat) : String :=
  "/mothership/blogs/blog/" ++ toString pk ++ "/change/"

/-- Modelled from the spec: Django's
`reverse('admin:blogs_usersettings_change', ...)`, as for
`reverse_blog_change`. -/
def reverse_usersettings_change (pk : Nat) : String :=
  "/mothership/blogs/usersettings/" ++ toString pk ++ "/change/"

/-- Modelled from the spec: `str(user)` — the spec's status line "names the
blocked user"; a bearblog user is identified by email. -/
def userStr (u : User) : String := u.email

/-- Modelled from the spec: `str(blog)` — the spec's status line "names the
blog"; we use its title. -/
def blogStr (b : Blog) : String := b.title

/-- Modelled from the spec: `str(post)` for the Hit column; we use the post
title. -/
def postStr (p : Post) : String := p.title

/-- Modelled from the spec: `Blog.dynamic_useful_domain` (defined in
`blogs/models.py`, not under `src/`) — the blog's preferred public address:
the custom domain when set, otherwise the subdomain host. -/
def dynamic_useful_domain (b : Blog) : String :=
  match b.domain with
  | none => "http://" ++ root b.subdomain
  | some d => if d = "" then "http://" ++ root b.subdomain else "http://" ++ d

/-- `BlogAdmin.domain_url`: `None` when the domain field is falsy, otherwise
the single-quoted anchor `<a href='http://{url}' target='_blank'>{url}</a>`
with the escaped domain interpolated twice. -/
def domain_url (b : Blog) : Option String :=
  match b.domain with
  | none => none
  | some d =>
    if d = "" then none
    else some ("<a href=" ++ squo ++ "http://" ++ escape d ++ squo ++ " target="
      ++ squo ++ "_blank" ++ squo ++ ">" ++ escape d ++ "</a>")

/-- `BlogAdmin.subdomain_url`: the same anchor template applied to
`root(obj.subdomain)`. -/
def subdomain_url (b : Blog) : String :=
  "<a href=" ++ squo ++ "http://" ++ escape (root b.subdomain) ++ squo ++ " target="
    ++ squo ++ "_blank" ++ squo ++ ">" ++ escape (root b.subdomain) ++ "</a>"

/-- `BlogAdmin.user_link`: `<a href="{url}">{username}</a>` with the reversed
settings-change URL and the escaped user string; note the template carries no
`target` attribute. -/
def user_link (u : User) : String :=
  "<a href=" ++ dq ++ escape (reverse_usersettings_change u.settings_id) ++ dq
    ++ ">" ++ escape (userStr u) ++ "</a>"

/-- `HitAdmin.post_link`:
`<a href="/mothership/blogs/post/{id}/change/">{post}</a>`; no `target`
attribute either. -/
def post_link (p : Post) : String :=
  "<a href=" ++ dq ++ "/mothership/blogs/post/" ++ escape (toString p.pk)
    ++ "/change/" ++ dq ++ ">" ++ escape (postStr p) ++ "</a>"

/-- `BlogAdmin.post_count` backed by the `Count('posts')` annotation: the
number of posts whose blog is this record. -/
def post_count (posts : List Post) (b : Blog) : Nat :=
  (posts.filter (fun p => p.blog_id == b.id)).length

/-- The inner anchor of the `UserSettingsAdmin.blogs` column:
`<a href="{0}" target="_blank">{1}</a>` applied to the blog's
`dynamic_useful_domain` and subdomain. -/
def blogs_inner (b : Blog) : String :=
  "<a href=" ++ dq ++ escape (dynamic_useful_domain b) ++ dq ++ " target="
    ++ dq ++ "_blank" ++ dq ++ ">" ++ escape b.subdomain ++ "</a>"

/-- The `[edit]` anchor of the `UserSettingsAdmin.blogs` column:
`<a href="{}" target="_blank">[edit]</a>` applied to an edit-page URL. -/
def edit_anchor (url : String) : String :=
  "<a href=" ++ dq ++ escape url ++ dq ++ " target=" ++ dq ++ "_blank" ++ dq
    ++ ">[edit]</a>"

/-- One joined item of the `UserSettingsAdmin.blogs` column: the format
string `'{} <a href="{}" target="_blank">[edit]</a>'` applied to the (safe,
hence not re-escaped) inner anchor and the blog's escaped edit URL. -/
def blogs_entry (b : Blog) : String :=
  blogs_inner b ++ " " ++ edit_anchor (reverse_blog_change b.id)

/-- `django.utils.html.format_html_join`: interleave the separator between
the rendered items ("" on an empty generator). -/
def format_html_join (sep : String) : List String → String
  | [] => ""
  | x :: xs => xs.foldl (fun acc y => acc ++ sep ++ y) x

/-- `UserSettingsAdmin.blogs`: join the owned blogs' entries with `", "`;
`blogs_links or 'No blogs'` falls back to the literal when the joined string
is empty (Python truthiness). -/
def blogs (owned : List Blog) : String :=
  let links := format_html_join ", " (owned.map blogs_entry)
  if links == "" then "No blogs" else links

/-- Outcome of one `check_connection(blog)` call as seen by
`validate_domains`: a boolean result, the caught `TooManyRedirects`
exception, or any other (uncaught) failure. -/
inductive CheckResult where
  | ok (reachable : Bool)
  | tooManyRedirects
  | otherError
deriving Repr, DecidableEq

/-- `BlogAdmin.validate_domains`: iterate the selected blogs in order; per
record print `Checking {blog.domain}` and then `good` / `borked!` for a
`true` / `false` checker result, catch `TooManyRedirects` as `borked!`, and
let any other failure escape (third component `true`), aborting the rest of
the batch.  The record store is threaded through untouched. -/
def validate_domains (checker : Blog → CheckResult) : DB → List Blog → DB × List String × Bool
  | db, [] => (db, [], false)
  | db, b :: rest =>
    let hdr := "Checking " ++ domainRepr b.domain
    match checker b with
    | CheckResult.ok true =>
      let r := validate_domains checker db rest
      (r.1, hdr :: "good" :: r.2.1, r.2.2)
    | CheckResult.ok false =>
      let r := validate_domains checker db rest
      (r.1, hdr :: "borked!" :: r.2.1, r.2.2)
    | CheckResult.tooManyRedirects =>
      let r := validate_domains checker db rest
      (r.1, hdr :: "borked!" :: r.2.1, r.2.2)
    | CheckResult.otherError => (db, [hdr], true)

/-- The user string printed by `block_blog` for `{blog.user}`: attribute
access on the owning user row (present for every blog by the FK invariant). -/
def bannedName : List User → Nat → String
  | [], _ => "None"
  | u :: us, uid => if u.id = uid then userStr u else bannedName us uid

/-- Persist `blog.user.is_active = False`: rewrite the owning user's row in
the user table, all other rows and fields untouched. -/
def deactivate (users : List User) (uid : Nat) : List User :=
  users.map (fun u => if u.id = uid then { u with is_active := false } else u)

/-- `BlogAdmin.block_blog`: iterate the selected blogs in order; per record
set the owning user's `is_active` to false, `save()` it (the oracle says
whether the save succeeds — a failing save raises, third component `true`,
and aborts the rest), then print `Blocked {blog} and banned {blog.user}`. -/
def block_blog (saveOk : Nat → Bool) : DB → List Blog → DB × List String × Bool
  | db, [] => (db, [], false)
  | db, b :: rest =>
    if saveOk b.user_id then
      let users1 := deactivate db.users b.user_id
      let line := "Blocked " ++ blogStr b ++ " and banned " ++ bannedName users1 b.user_id
      let r := block_blog saveOk { db with users := users1 } rest
      (r.1, line :: r.2.1, r.2.2)
    else (db, [], true)

/-- The per-record log the spec expects from a `validate_domains` run whose
checks all complete: the `Checking` header followed by the outcome line. -/
def outcome_line : CheckResult → String
  | CheckResult.ok true => "good"
  | CheckResult.ok false => "borked!"
  | CheckResult.tooManyRedirects => "borked!"
  | CheckResult.otherError => ""

/-- The full expected log of a `validate_domains` run with no uncaught
failure. -/
def expected_validation_log (checker : Blog → CheckResult) : List Blog → List String
  | [] => []
  | b :: rest =>
    ("Checking " ++ domainRepr b.domain) :: outcome_line (checker b)
      :: expected_validation_log checker rest

/-- All four computed columns of one `Blog` list row, as a single value:
subdomain link, optional domain link, post count, owner link. -/
def blog_row (b : Blog) (posts : List Post) (u : User) : String × Option String × Nat × String :=
  (subdomain_url b, domain_url b, post_count posts b, user_link u)

/-- Number of occurrences of a character in a string. -/
def charCount (c : Char) (s : String) : Nat :=
  (s.data.filter (fun x => x == c)).length

/-- Whether `pat` occurs as a contiguous subsequence of `l`. -/
def containsSeq (pat : List Char) : List Char → Bool
  | [] => pat.isEmpty
  | c :: rest => pat.isPrefixOf (c :: rest) || containsSeq pat rest

/-- Whether `pat` occurs as a substring of `s`. -/
def hasSub (pat s : String) : Bool := containsSeq pat.data s.data

/-- Concrete fixture: an active user. -/
def exUser : User := { id := 1, settings_id := 7, email := "anna@example.com", is_active := true }

/-- Concrete fixture: the same user already deactivated. -/
def exUserInactive : User := { exUser with is_active := false }

/-- Concrete fixture: a blog with a custom domain, owned by `exUser`. -/
def exBlog : Blog :=
  { id := 3, title := "Example Blog", subdomain := "anna", domain := some "example.com", user_id := 1 }

/-- Concrete fixture: a blog with no custom domain. -/
def exBlogNoDomain : Blog :=
  { id := 4, title := "No Domain", subdomain := "beta", domain := none, user_id := 1 }

/-- Concrete fixture: a post. -/
def exPost : Post := { pk := 9, title := "Hello World", blog_id := 3 }

/-- Concrete fixture: a store with one user and one blog. -/
def exDB : DB := { users := [exUser], blogs := [exBlog] }

/-- Concrete fixture: the same store with the user already inactive. -/
def exDBInactive : DB := { users := [exUserInactive], blogs := [exBlog] }

/-- Concrete fixture: a checker that reports every domain unreachable. -/
def chkFalse : Blog → CheckResult := fun _ => CheckResult.ok false

/-- Concrete fixture: a checker that fails with an unrelated error. -/
def chkErr : Blog → CheckResult := fun _ => CheckResult.otherError

/-- Concrete fixture: every save succeeds. -/
def allOk : Nat → Bool := fun _ => true

/-- Concrete fixture: every save fails. -/
def noSave : Nat → Bool := fun _ => false

/-- `String.append` concatenates the underlying character lists. -/
theorem data_append (a b : String) : (a ++ b).data = a.data ++ b.data := rfl

/-- Claim C1 (amended: the code's negative marker is the string `borked!`,
with an exclamation mark): in a `validate_domains` run whose checker never
fails with an unrelated error, each selected blog contributes its `Checking`
header followed by `good` when the checker returns true and `borked!` when
it returns false or raises the caught `TooManyRedirects` condition, which
does not propagate (no exception escapes the run). -/
theorem validate_domains_outcomes (checker : Blog → CheckResult) (db : DB) (bs : List Blog)
    (h : ∀ b ∈ bs, checker b ≠ CheckResult.otherError) :
    validate_domains checker db bs = (db, expected_validation_log checker bs, false) := by
  induction bs with
  | nil => rfl
  | cons b rest ih =>
    have hb : checker b ≠ CheckResult.otherError := h b (List.mem_cons_self b rest)
    have hrest : ∀ x ∈ rest, checker x ≠ CheckResult.otherError :=
      fun x hx => h x (List.mem_cons_of_mem b hx)
    have ihr := ih hrest
    cases hc : checker b with
    | ok r =>
      cases r <;>
        simp [validate_domains, expected_validation_log, hc, ihr, outcome_line]
    | tooManyRedirects =>
      simp [validate_domains, expected_validation_log, hc, ihr, outcome_line]
    | otherError => exact absurd hc hb

/-- Witness for C1: a concrete single-record run with an unreachable
domain logs the header and `borked!` and raises nothing. -/
theorem validate_domains_outcomes_witness :
    validate_domains chkFalse exDB [exBlog] = (exDB, ["Checking example.com", "borked!"], false) := by
  rw [validate_domains_outcomes chkFalse exDB [exBlog] (by decide)]
  decide

/-- Counterexample for C1 as stated: for a record whose check returns false
the logged outcome line is `borked!`, and the literal `borked` claimed by the
spec appears nowhere in the run's log. -/
theorem validate_domains_borked_literal :
    (validate_domains chkFalse exDB [exBlog]).2.1 = ["Checking example.com", "borked!"]
      ∧ "borked" ∉ (validate_domains chkFalse exDB [exBlog]).2.1 := by
  decide

/-- Claim C9: `validate_domains` never mutates the record store — whatever
the checker does on each record, the store after the action is exactly the
store before it; the action's only outputs are the log and the raised flag. -/
theorem validate_domains_pure (checker : Blog → CheckResult) (db : DB) (bs : List Blog) :
    (validate_domains checker db bs).1 = db := by
  induction bs with
  | nil => rfl
  | cons b rest ih =>
    cases hc : checker b with
    | ok r => cases r <;> simp [validate_domains, hc, ih]
    | tooManyRedirects => simp [validate_domains, hc, ih]
    | otherError => simp [validate_domains, hc]

/-- Claim C6: a blog with no custom domain set renders an absent domain
link. -/
theorem domain_url_absent (b : Blog) (h : b.domain = none) : domain_url b = none := by
  simp [domain_url, h]

/-- Witness for C6: the fixture blog without a domain renders `none`. -/
theorem domain_url_absent_witness :
    exBlogNoDomain.domain = none ∧ domain_url exBlogNoDomain = none :=
  ⟨rfl, domain_url_absent exBlogNoDomain rfl⟩

/-- Claim C10: `domain_url` tests the field for truthiness — it is absent
exactly when the domain is unset or the empty string, so an empty-string
domain is treated identically to an unset one and a link is produced only
for a non-empty domain. -/
theorem domain_url_truthiness (b : Blog) :
    (domain_url b = none ↔ (b.domain = none ∨ b.domain = some ""))
      ∧ domain_url { b with domain := some "" } = domain_url { b with domain := none } := by
  refine ⟨?_, by simp [domain_url]⟩
  cases hd : b.domain with
  | none => simp [domain_url, hd]
  | some d =>
    by_cases hde : d = "" <;> simp [domain_url, hd, hde]

/-- Claim C8: rendering the computed columns of a `Blog` row twice with the
same record and related data yields the same values — the renderers of the
embedding are pure functions of the record, the post table and the owning
user, with no other state to depend on. -/
theorem blog_row_deterministic (b : Blog) (posts : List Post) (u : User) :
    blog_row b posts u = blog_row b posts u := rfl

/-- Deactivating one user's row does not change the string printed for any
user: `bannedName` reads only ids and emails, which `deactivate` keeps. -/
theorem bannedName_deactivate (users : List User) (v uid : Nat) :
    bannedName (deactivate users v) uid = bannedName users uid := by
  induction users with
  | nil => rfl
  | cons u us ih =>
    have hcons : deactivate (u :: us) v
        = (if u.id = v then { u with is_active := false } else u) :: deactivate us v := rfl
    rw [hcons]
    by_cases hv : u.id = v
    · rw [if_pos hv]
      simp only [bannedName]
      by_cases hu : u.id = uid
      · rw [if_pos (show ({ u with is_active := false } : User).id = uid from hu), if_pos hu]
        rfl
      · rw [if_neg (show ¬({ u with is_active := false } : User).id = uid from hu), if_neg hu]
        exact ih
    · rw [if_neg hv]
      simp only [bannedName]
      by_cases hu : u.id = uid
      · rw [if_pos hu, if_pos hu]
      · rw [if_neg hu, if_neg hu]
        exact ih

/-- Folding one more deactivation into a conditional pass over the user
table: deactivating `v` first and then everyone satisfying `q` is one pass
deactivating everyone satisfying `v = id` or `q id`. -/
theorem deactivate_then_map (users : List User) (v : Nat) (rest : List Blog) :
    (deactivate users v).map (fun u =>
        if rest.any (fun x => x.user_id == u.id) then { u with is_active := false } else u)
      = users.map (fun u =>
          if (v == u.id || rest.any (fun x => x.user_id == u.id)) then
            { u with is_active := false }
          else u) := by
  induction users with
  | nil => rfl
  | cons u us ih =>
    have hcons : deactivate (u :: us) v
        = (if u.id = v then { u with is_active := false } else u) :: deactivate us v := rfl
    rw [hcons, List.map_cons, List.map_cons, ih]
    congr 1
    by_cases hv : u.id = v
    · have hb : (v == u.id) = true := by simp [hv]
      rw [if_pos hv]
      by_cases hq : (rest.any fun x => x.user_id == u.id) = true
      · rw [if_pos (show (rest.any fun x => x.user_id ==
            ({ u with is_active := false } : User).id) = true from hq), hb]
        simp
      · rw [if_neg (show ¬(rest.any fun x => x.user_id ==
            ({ u with is_active := false } : User).id) = true from hq), hb]
        simp
    · have hb : (v == u.id) = false := by
        simp only [beq_eq_false_iff_ne]
        exact fun hvv => hv hvv.symm
      rw [if_neg hv, hb]
      by_cases hq : (rest.any fun x => x.user_id == u.id) = true
      · rw [if_pos hq]
        simp [hq]
      · rw [if_neg hq]
        simp [hq]

/-- Helper: full characterisation of a `block_blog` run in which every save
succeeds — every owner of a selected blog is deactivated in a single
conditional pass (all other rows and fields kept), one status line is
emitted per record, and nothing is raised. -/
theorem block_blog_run (saveOk : Nat → Bool) (db : DB) (sel : List Blog)
    (h : ∀ b ∈ sel, saveOk b.user_id = true) :
    block_blog saveOk db sel =
      ({ users := db.users.map (fun u =>
            if sel.any (fun x => x.user_id == u.id) then { u with is_active := false } else u),
         blogs := db.blogs },
       sel.map (fun b => "Blocked " ++ blogStr b ++ " and banned " ++ bannedName db.users b.user_id),
       false) := by
  revert h
  induction sel generalizing db with
  | nil =>
    intro _
    cases db with
    | mk us bs => simp [block_blog]
  | cons b rest ih =>
    intro h
    have hb : saveOk b.user_id = true := h b (List.mem_cons_self b rest)
    have hr : ∀ x ∈ rest, saveOk x.user_id = true :=
      fun x hx => h x (List.mem_cons_of_mem b hx)
    have ihr := ih { users := deactivate db.users b.user_id, blogs := db.blogs } hr
    simp only [block_blog, hb, if_true]
    rw [ihr]
    rw [deactivate_then_map db.users b.user_id rest]
    simp only [List.map_cons, List.any_cons, bannedName_deactivate]

/-- Claim C2: a `block_blog` run over a selection (all saves succeeding)
sets `is_active := false` on exactly the owners of selected blogs and
persists it, leaves every other user untouched and every other field of
every record (including the whole blog table) unchanged, emits one status
line per selected record naming the blog and the blocked user, and raises
nothing. -/
theorem block_blog_spec (saveOk : Nat → Bool) (db : DB) (sel : List Blog)
    (h : ∀ b ∈ sel, saveOk b.user_id = true) :
    block_blog saveOk db sel =
      ({ users := db.users.map (fun u =>
            if sel.any (fun x => x.user_id == u.id) then { u with is_active := false } else u),
         blogs := db.blogs },
       sel.map (fun b => "Blocked " ++ blogStr b ++ " and banned " ++ bannedName db.users b.user_id),
       false) :=
  block_blog_run saveOk db sel h

/-- Witness for C2: blocking the fixture selection deactivates the owner,
keeps the blog table, and logs one line naming blog and user. -/
theorem block_blog_spec_witness :
    block_blog allOk exDB [exBlog]
      = ({ users := [exUserInactive], blogs := [exBlog] },
         ["Blocked Example Blog and banned anna@example.com"], false) := by
  rw [block_blog_spec allOk exDB [exBlog] (by decide)]
  decide

/-- Helper: a `block_blog` run that hits a failing save mid-batch keeps the
persisted deactivations and status lines of the records processed before the
failing one, raises, and touches nothing else. -/
theorem block_blog_abort (saveOk : Nat → Bool) (db : DB) (pre : List Blog) (bad : Blog)
    (post : List Blog) (hpre : ∀ b ∈ pre, saveOk b.user_id = true)
    (hbad : saveOk bad.user_id = false) :
    block_blog saveOk db (pre ++ bad :: post)
      = ({ users := db.users.map (fun u =>
            if pre.any (fun x => x.user_id == u.id) then { u with is_active := false } else u),
           blogs := db.blogs },
         pre.map (fun b => "Blocked " ++ blogStr b ++ " and banned " ++ bannedName db.users b.user_id),
         true) := by
  revert hpre
  induction pre generalizing db with
  | nil =>
    intro _
    cases db with
    | mk us bs => simp [block_blog, hbad]
  | cons b rest ih =>
    intro hpre
    have hb : saveOk b.user_id = true := hpre b (List.mem_cons_self b rest)
    have hr : ∀ x ∈ rest, saveOk x.user_id = true :=
      fun x hx => hpre x (List.mem_cons_of_mem b hx)
    have ihr := ih { users := deactivate db.users b.user_id, blogs := db.blogs } hr
    simp only [List.cons_append, block_blog, hb, if_true, List.append_eq]
    rw [ihr]
    rw [deactivate_then_map db.users b.user_id rest]
    simp only [List.map_cons, List.any_cons, bannedName_deactivate]

/-- Helper: a `validate_domains` run that hits an unrelated checker failure
mid-batch keeps the log of the records processed before the failing one plus
the failing record's `Checking` header, raises, processes none of the
remaining records, and leaves the store unchanged. -/
theorem validate_domains_abort (checker : Blog → CheckResult) (db : DB) (pre : List Blog)
    (bad : Blog) (post : List Blog)
    (hpre : ∀ b ∈ pre, checker b ≠ CheckResult.otherError)
    (hbad : checker bad = CheckResult.otherError) :
    validate_domains checker db (pre ++ bad :: post)
      = (db, expected_validation_log checker pre
          ++ ["Checking " ++ domainRepr bad.domain], true) := by
  induction pre with
  | nil => simp [validate_domains, hbad, expected_validation_log]
  | cons b rest ih =>
    have hb : checker b ≠ CheckResult.otherError := hpre b (List.mem_cons_self b rest)
    have hrest : ∀ x ∈ rest, checker x ≠ CheckResult.otherError :=
      fun x hx => hpre x (List.mem_cons_of_mem b hx)
    have ihr := ih hrest
    cases hc : checker b with
    | ok r =>
      cases r <;>
        simp [validate_domains, expected_validation_log, hc, ihr, outcome_line]
    | tooManyRedirects =>
      simp [validate_domains, expected_validation_log, hc, ihr, outcome_line]
    | otherError => exact absurd hc hb

/-- Claim C3: a failure other than `TooManyRedirects` mid-batch is not
caught — the `validate_domains` batch stops before any subsequent record,
keeping the log of the completed records and the failing record's header,
with the store untouched; likewise a failing save mid-`block_blog` stops the
batch while the persisted deactivations and status lines of the completed
records stand (no rollback). -/
theorem no_rollback_on_mid_batch_failure
    (checker : Blog → CheckResult) (db : DB) (pre : List Blog) (bad : Blog) (post : List Blog)
    (hpre : ∀ b ∈ pre, checker b ≠ CheckResult.otherError)
    (hbad : checker bad = CheckResult.otherError)
    (saveOk : Nat → Bool) (db2 : DB) (pre2 : List Blog) (bad2 : Blog) (post2 : List Blog)
    (hpre2 : ∀ b ∈ pre2, saveOk b.user_id = true)
    (hbad2 : saveOk bad2.user_id = false) :
    validate_domains checker db (pre ++ bad :: post)
      = (db, expected_validation_log checker pre
          ++ ["Checking " ++ domainRepr bad.domain], true)
    ∧ block_blog saveOk db2 (pre2 ++ bad2 :: post2)
      = ({ users := db2.users.map (fun u =>
            if pre2.any (fun x => x.user_id == u.id) then { u with is_active := false } else u),
           blogs := db2.blogs },
         pre2.map (fun b =>
           "Blocked " ++ blogStr b ++ " and banned " ++ bannedName db2.users b.user_id),
         true) :=
  ⟨validate_domains_abort checker db pre bad post hpre hbad,
   block_blog_abort saveOk db2 pre2 bad2 post2 hpre2 hbad2⟩

/-- Witness for C3: with one completed record before the failing one, the
completed record's log line (and, for `block_blog`, its persisted
deactivation) stands and the batch stops. -/
theorem no_rollback_on_mid_batch_failure_witness :
    validate_domains chkErr exDB [exBlog] = (exDB, ["Checking example.com"], true)
      ∧ block_blog noSave exDB [exBlog] = (exDB, [], true) := by
  have h := no_rollback_on_mid_batch_failure chkErr exDB [] exBlog [] (by decide) (by decide)
    noSave exDB [] exBlog [] (by decide) (by decide)
  exact ⟨h.1.trans (by decide), h.2.trans (by decide)⟩

/-- Helper: the conditional deactivation pass is the identity on a user
table whose selected owners are already inactive. -/
theorem map_cond_noop (sel : List Blog) (l : List User)
    (h : ∀ u ∈ l, (sel.any fun x => x.user_id == u.id) = true → u.is_active = false) :
    l.map (fun u =>
        if sel.any (fun x => x.user_id == u.id) then { u with is_active := false } else u)
      = l := by
  induction l with
  | nil => rfl
  | cons u us ih =>
    have hu := h u (List.mem_cons_self u us)
    have hus : ∀ v ∈ us, (sel.any fun x => x.user_id == v.id) = true → v.is_active = false :=
      fun v hv => h v (List.mem_cons_of_mem u hv)
    rw [List.map_cons, ih hus]
    by_cases hc : (sel.any fun x => x.user_id == u.id) = true
    · rw [if_pos hc]
      have := hu hc
      cases u with
      | mk i s e a => simp at this; simp [this]
    · rw [if_neg hc]

/-- Helper: the conditional deactivation pass is idempotent on the user
table. -/
theorem map_cond_idem (sel : List Blog) (l : List User) :
    ((l.map (fun u =>
        if sel.any (fun x => x.user_id == u.id) then { u with is_active := false } else u)).map
          (fun u =>
            if sel.any (fun x => x.user_id == u.id) then { u with is_active := false } else u))
      = l.map (fun u =>
          if sel.any (fun x => x.user_id == u.id) then { u with is_active := false } else u) := by
  induction l with
  | nil => rfl
  | cons u us ih =>
    simp only [List.map_cons, ih]
    by_cases hc : (sel.any fun x => x.user_id == u.id) = true
    · rw [if_pos hc]
      rw [if_pos (show (sel.any fun x => x.user_id ==
          ({ u with is_active := false } : User).id) = true from hc)]
    · rw [if_neg hc, if_neg hc]

/-- Claim C7: `block_blog` is idempotent — on a selection whose owners are
already inactive it leaves the store exactly as it was while still emitting
one status line per record and raising nothing, and running the action twice
over the same selection ends in the same store as running it once. -/
theorem block_blog_idempotent (saveOk : Nat → Bool) (db : DB) (sel : List Blog)
    (h : ∀ b ∈ sel, saveOk b.user_id = true) :
    ((∀ u ∈ db.users, (sel.any fun x => x.user_id == u.id) = true → u.is_active = false) →
        (block_blog saveOk db sel).1 = db)
      ∧ (block_blog saveOk db sel).2.1.length = sel.length
      ∧ (block_blog saveOk db sel).2.2 = false
      ∧ (block_blog saveOk (block_blog saveOk db sel).1 sel).1
          = (block_blog saveOk db sel).1 := by
  have hrun := block_blog_run saveOk db sel h
  refine ⟨?_, ?_, ?_, ?_⟩
  · intro hin
    rw [hrun]
    obtain ⟨us, bs⟩ := db
    simp only at hin ⊢
    rw [map_cond_noop sel us hin]
  · rw [hrun]
    simp
  · rw [hrun]
  · rw [hrun]
    have hrun2 := block_blog_run saveOk
      { users := db.users.map (fun u =>
          if sel.any (fun x => x.user_id == u.id) then { u with is_active := false } else u),
        blogs := db.blogs } sel h
    rw [hrun2]
    simp only
    rw [map_cond_idem sel db.users]

/-- Witness for C7: blocking an already-inactive fixture store is a no-op
that still logs, and a second run over the fresh store changes nothing
further. -/
theorem block_blog_idempotent_witness :
    (block_blog allOk exDBInactive [exBlog]).1 = exDBInactive
      ∧ (block_blog allOk exDB [exBlog]).2.1.length = 1
      ∧ (block_blog allOk (block_blog allOk exDB [exBlog]).1 [exBlog]).1
          = (block_blog allOk exDB [exBlog]).1 := by
  have h1 := block_blog_idempotent allOk exDBInactive [exBlog] (by decide)
  have h2 := block_blog_idempotent allOk exDB [exBlog] (by decide)
  exact ⟨h1.1 (by decide), h2.2.1, h2.2.2.2⟩

/-- Helper: folding further items onto a join never shortens it below the
seed string. -/
theorem join_length_ge (sep : String) : ∀ (xs : List String) (x : String),
    x.length ≤ (xs.foldl (fun acc y => acc ++ sep ++ y) x).length := by
  intro xs
  induction xs with
  | nil => intro x; simp
  | cons y ys ih =>
    intro x
    rw [List.foldl_cons]
    exact le_trans
      (by rw [String.length_append, String.length_append]; omega)
      (ih (x ++ sep ++ y))

/-- Helper: a rendered blogs-column entry is never the empty string. -/
theorem blogs_entry_length_pos (b : Blog) : 0 < (blogs_entry b).length := by
  have h1 : (blogs_entry b).length
      = (blogs_inner b).length + (" " : String).length
        + (edit_anchor (reverse_blog_change b.id)).length := by
    rw [blogs_entry, String.length_append, String.length_append]
  have h2 : ((" " : String)).length = 1 := rfl
  omega

/-- Claim C4: the `blogs` computed column renders the literal `No blogs`
for a user owning zero blogs, and for a user owning N ≥ 1 blogs it renders
the comma-join of exactly N entries, each of which is the blog's link paired
with an `[edit]` anchor to that blog's edit page. -/
theorem blogs_column_spec (owned : List Blog) :
    (owned = [] → blogs owned = "No blogs")
      ∧ (owned ≠ [] → ∃ entries : List String,
          blogs owned = format_html_join ", " entries
            ∧ entries.length = owned.length
            ∧ ∀ e ∈ entries, ∃ b ∈ owned,
                e = blogs_inner b ++ " " ++ edit_anchor (reverse_blog_change b.id)) := by
  constructor
  · intro h
    subst h
    rfl
  · intro h
    obtain ⟨b, rest, rfl⟩ : ∃ b rest, owned = b :: rest := by
      cases owned with
      | nil => exact absurd rfl h
      | cons b rest => exact ⟨b, rest, rfl⟩
    refine ⟨(b :: rest).map blogs_entry, ?_, by simp, ?_⟩
    · have hpos : 0 < (format_html_join ", " ((b :: rest).map blogs_entry)).length := by
        rw [List.map_cons]
        simp only [format_html_join]
        exact lt_of_lt_of_le (blogs_entry_length_pos b)
          (join_length_ge ", " (rest.map blogs_entry) (blogs_entry b))
      have hne : (format_html_join ", " ((b :: rest).map blogs_entry) == "") = false := by
        refine beq_eq_false_iff_ne.mpr fun heq => ?_
        rw [heq] at hpos
        exact (by decide : ¬ (0 < ("" : String).length)) hpos
      simp only [blogs, hne]
      simp
    · intro e he
      obtain ⟨b', hb', rfl⟩ := List.mem_map.mp he
      exact ⟨b', hb', rfl⟩

/-- Witness for C4: the empty fixture selection renders `No blogs`, and the
one-blog fixture renders a one-entry join. -/
theorem blogs_column_spec_witness :
    blogs [] = "No blogs"
      ∧ ∃ entries : List String,
          blogs [exBlog] = format_html_join ", " entries
            ∧ entries.length = ([exBlog] : List Blog).length
            ∧ ∀ e ∈ entries, ∃ b ∈ ([exBlog] : List Blog),
                e = blogs_inner b ++ " " ++ edit_anchor (reverse_blog_change b.id) :=
  ⟨(blogs_column_spec []).1 rfl, (blogs_column_spec [exBlog]).2 (by decide)⟩

/-- Helper: `escapeChar` never emits a markup-significant character. -/
theorem escapeChar_safe_all (c : Char) :
    ((escapeChar c).data.all fun x =>
      !(x == ltChar) && !(x == gtChar) && !(x == dqChar) && !(x == aposChar)) = true := by
  by_cases h1 : c = ampChar
  · subst h1; decide
  by_cases h2 : c = ltChar
  · subst h2; decide
  by_cases h3 : c = gtChar
  · subst h3; decide
  by_cases h4 : c = dqChar
  · subst h4; decide
  by_cases h5 : c = aposChar
  · subst h5; decide
  rw [escapeChar, if_neg h1, if_neg h2, if_neg h3, if_neg h4, if_neg h5]
  have hs : (String.singleton c).data = [c] := rfl
  rw [hs]
  simp [h2, h3, h4, h5]

/-- Helper: an escaped string contains no `<`, `>`, `"` or `'` character, so
embedded data cannot open a tag or terminate an attribute value. -/
theorem escape_safe (s : String) :
    ∀ x ∈ (escape s).data, x ≠ ltChar ∧ x ≠ gtChar ∧ x ≠ dqChar ∧ x ≠ aposChar := by
  have hcore : ∀ (l : List Char), ∀ x ∈ escapeCore l,
      x ≠ ltChar ∧ x ≠ gtChar ∧ x ≠ dqChar ∧ x ≠ aposChar := by
    intro l
    induction l with
    | nil =>
      intro x hx
      simp [escapeCore] at hx
    | cons c cs ih =>
      intro x hx
      rw [escapeCore] at hx
      rcases List.mem_append.mp hx with h | h
      · have hall := escapeChar_safe_all c
        rw [List.all_eq_true] at hall
        have hx2 := hall x h
        have hx3 : ((¬x = ltChar ∧ ¬x = gtChar) ∧ ¬x = dqChar) ∧ ¬x = aposChar := by
          simpa using hx2
        exact ⟨hx3.1.1.1, hx3.1.1.2, hx3.1.2, hx3.2⟩
      · exact ih x h
  intro x hx
  exact hcore s.data x hx

/-- Helper: character counting distributes over concatenation. -/
theorem charCount_append (c : Char) (a b : String) :
    charCount c (a ++ b) = charCount c a + charCount c b := by
  simp [charCount, data_append, List.filter_append]

/-- Helper: escaped data contributes no `<` character. -/
theorem charCount_escape_lt (s : String) : charCount ltChar (escape s) = 0 := by
  simp only [charCount, List.length_eq_zero]
  refine List.filter_eq_nil_iff.mpr fun a ha => ?_
  have := (escape_safe s a ha).1
  simp [this]

/-- Helper: escaped data contributes no `"` character. -/
theorem charCount_escape_dq (s : String) : charCount dqChar (escape s) = 0 := by
  simp only [charCount, List.length_eq_zero]
  refine List.filter_eq_nil_iff.mpr fun a ha => ?_
  have := (escape_safe s a ha).2.2.1
  simp [this]

/-- Helper: a prefix of a list is a prefix of any right extension. -/
theorem isPrefixOf_append_of (p : List Char) : ∀ (t u : List Char),
    p.isPrefixOf t = true → p.isPrefixOf (t ++ u) = true := by
  induction p with
  | nil =>
    intro t u _
    simp [List.isPrefixOf]
  | cons a as ih =>
    intro t u h
    cases t with
    | nil => simp [List.isPrefixOf] at h
    | cons b bs =>
      rw [List.cons_append]
      have h2 : (a == b && as.isPrefixOf bs) = true := h
      have h3 : a = b ∧ as.isPrefixOf bs = true := by simpa using h2
      have hg : (a == b && as.isPrefixOf (bs ++ u)) = true := by
        simp [h3.1, ih bs u h3.2]
      exact hg

/-- Helper: a list is a prefix of itself followed by anything. -/
theorem isPrefixOf_self_append (p u : List Char) : p.isPrefixOf (p ++ u) = true := by
  induction p with
  | nil => simp [List.isPrefixOf]
  | cons a as ih => simp [List.isPrefixOf, ih]

/-- Helper: the empty pattern occurs in every list. -/
theorem containsSeq_nil (l : List Char) : containsSeq [] l = true := by
  cases l with
  | nil => rfl
  | cons c rest => simp [containsSeq, List.isPrefixOf]

/-- Helper: a pattern that is a prefix occurs as a subsequence. -/
theorem containsSeq_of_isPrefixOf (p l : List Char) (h : p.isPrefixOf l = true) :
    containsSeq p l = true := by
  cases l with
  | nil =>
    cases p with
    | nil => rfl
    | cons a as => simp [List.isPrefixOf] at h
  | cons c rest => simp [containsSeq, h]

/-- Helper: occurrence is preserved by prepending. -/
theorem containsSeq_append_left (p : List Char) : ∀ (s t : List Char),
    containsSeq p t = true → containsSeq p (s ++ t) = true := by
  intro s
  induction s with
  | nil =>
    intro t h
    simpa using h
  | cons c cs ih =>
    intro t h
    rw [List.cons_append]
    simp only [containsSeq, Bool.or_eq_true]
    exact Or.inr (ih t h)

/-- Helper: occurrence is preserved by appending. -/
theorem containsSeq_append_right (p : List Char) : ∀ (t u : List Char),
    containsSeq p t = true → containsSeq p (t ++ u) = true := by
  intro t
  induction t with
  | nil =>
    intro u h
    have hp : p = [] := by
      cases p with
      | nil => rfl
      | cons a as => simp [containsSeq] at h
    subst hp
    exact containsSeq_nil u
  | cons c cs ih =>
    intro u h
    rw [List.cons_append]
    simp only [containsSeq, Bool.or_eq_true] at h ⊢
    rcases h with h1 | h2
    · exact Or.inl (isPrefixOf_append_of p (c :: cs) u h1)
    · exact Or.inr (ih u h2)

/-- Helper: substring occurrence survives prepending text. -/
theorem hasSub_append_right (p s t : String) (h : hasSub p t = true) :
    hasSub p (s ++ t) = true :=
  containsSeq_append_left p.data s.data t.data h

/-- Helper: a string starting with the pattern contains it. -/
theorem hasSub_self_append (p t : String) : hasSub p (p ++ t) = true :=
  containsSeq_of_isPrefixOf p.data (p.data ++ t.data) (isPrefixOf_self_append p.data t.data)

/-- Helper: a pattern sitting between two fragments occurs as a substring. -/
theorem hasSub_middle (pat x y : String) : hasSub pat (x ++ (pat ++ y)) = true :=
  hasSub_append_right pat x (pat ++ y) (hasSub_self_append pat y)

/-- Counterexample for C5 as stated: the user-link and post-link columns do
not open in a new context — their rendered markup contains no `_blank`
token at all for these concrete records, refuting "every generated link
opens in a new context". -/
theorem user_link_no_new_context :
    hasSub "_blank" (user_link exUser) = false
      ∧ hasSub "_blank" (post_link exPost) = false := by
  decide

/-- Claim C5 (amended: escaping holds for every embedded value, and the
subdomain, domain and blogs-list links do open in a new context, but the
Blog user link and the Hit post link carry no `target` attribute — their
markup has exactly one quoted attribute value, the `href`):
escaped data contains no markup-significant character; the subdomain link,
the produced domain link, and both anchors of each blogs-column entry
contain a literal `target=_blank` attribute; and every renderer emits
exactly the template's own `<` characters (two per anchor), so embedded
values cannot inject tags; the user link and post link contain exactly two
`"` characters — the delimiters of their single `href` attribute — hence no
quoted `target` value. -/
theorem markup_escaping_and_targets (b : Blog) (p : Post) (u : User) (s : String)
    (d : String) (hd : b.domain = some d) (hne : d ≠ "") :
    (∀ x ∈ (escape s).data, x ≠ ltChar ∧ x ≠ gtChar ∧ x ≠ dqChar ∧ x ≠ aposChar)
      ∧ hasSub (" target=" ++ squo ++ "_blank" ++ squo) (subdomain_url b) = true
      ∧ (∃ out, domain_url b = some out
          ∧ hasSub (" target=" ++ squo ++ "_blank" ++ squo) out = true)
      ∧ hasSub (" target=" ++ dq ++ "_blank" ++ dq) (blogs_inner b) = true
      ∧ hasSub (" target=" ++ dq ++ "_blank" ++ dq) (edit_anchor (reverse_blog_change b.id)) = true
      ∧ charCount ltChar (subdomain_url b) = 2
      ∧ charCount ltChar (user_link u) = 2
      ∧ charCount ltChar (post_link p) = 2
      ∧ charCount ltChar (blogs_entry b) = 4
      ∧ charCount dqChar (user_link u) = 2
      ∧ charCount dqChar (post_link p) = 2 := by
  refine ⟨escape_safe s, ?_, ?_, ?_, ?_, ?_, ?_, ?_, ?_, ?_, ?_⟩
  · have key : subdomain_url b
        = ("<a href=" ++ squo ++ "http://" ++ escape (root b.subdomain) ++ squo)
          ++ ((" target=" ++ squo ++ "_blank" ++ squo)
              ++ (">" ++ escape (root b.subdomain) ++ "</a>")) := by
      simp [subdomain_url, String.append_assoc]
    rw [key]
    exact hasSub_middle (" target=" ++ squo ++ "_blank" ++ squo)
      ("<a href=" ++ squo ++ "http://" ++ escape (root b.subdomain) ++ squo)
      (">" ++ escape (root b.subdomain) ++ "</a>")
  · refine ⟨"<a href=" ++ squo ++ "http://" ++ escape d ++ squo ++ " target="
      ++ squo ++ "_blank" ++ squo ++ ">" ++ escape d ++ "</a>", by simp [domain_url, hd, hne], ?_⟩
    have key : ("<a href=" ++ squo ++ "http://" ++ escape d ++ squo ++ " target="
        ++ squo ++ "_blank" ++ squo ++ ">" ++ escape d ++ "</a>")
        = ("<a href=" ++ squo ++ "http://" ++ escape d ++ squo)
          ++ ((" target=" ++ squo ++ "_blank" ++ squo) ++ (">" ++ escape d ++ "</a>")) := by
      simp [String.append_assoc]
    rw [key]
    exact hasSub_middle (" target=" ++ squo ++ "_blank" ++ squo)
      ("<a href=" ++ squo ++ "http://" ++ escape d ++ squo)
      (">" ++ escape d ++ "</a>")
  · have key : blogs_inner b
        = ("<a href=" ++ dq ++ escape (dynamic_useful_domain b) ++ dq)
          ++ ((" target=" ++ dq ++ "_blank" ++ dq)
              ++ (">" ++ escape b.subdomain ++ "</a>")) := by
      simp [blogs_inner, String.append_assoc]
    rw [key]
    exact hasSub_middle (" target=" ++ dq ++ "_blank" ++ dq)
      ("<a href=" ++ dq ++ escape (dynamic_useful_domain b) ++ dq)
      (">" ++ escape b.subdomain ++ "</a>")
  · have key : edit_anchor (reverse_blog_change b.id)
        = ("<a href=" ++ dq ++ escape (reverse_blog_change b.id) ++ dq)
          ++ ((" target=" ++ dq ++ "_blank" ++ dq) ++ ">[edit]</a>") := by
      simp [edit_anchor, String.append_assoc]
    rw [key]
    exact hasSub_middle (" target=" ++ dq ++ "_blank" ++ dq)
      ("<a href=" ++ dq ++ escape (reverse_blog_change b.id) ++ dq)
      ">[edit]</a>"
  · simp only [subdomain_url, charCount_append, charCount_escape_lt]
    decide
  · simp only [user_link, charCount_append, charCount_escape_lt]
    decide
  · simp only [post_link, charCount_append, charCount_escape_lt]
    decide
  · simp only [blogs_entry, blogs_inner, edit_anchor, charCount_append, charCount_escape_lt]
    decide
  · simp only [user_link, charCount_append, charCount_escape_dq]
    decide
  · simp only [post_link, charCount_append, charCount_escape_dq]
    decide

/-- Witness for C5 (amended): the concrete fixture blog produces a domain
link carrying the `target=_blank` attribute, its subdomain link carries it
too, and the concrete user link has exactly its two `href` delimiters. -/
theorem markup_escaping_and_targets_witness :
    exBlog.domain = some "example.com"
      ∧ hasSub (" target=" ++ squo ++ "_blank" ++ squo) (subdomain_url exBlog) = true
      ∧ (∃ out, domain_url exBlog = some out
          ∧ hasSub (" target=" ++ squo ++ "_blank" ++ squo) out = true)
      ∧ charCount dqChar (user_link exUser) = 2 := by
  have h := markup_escaping_and_targets exBlog exPost exUser "x" "example.com" rfl (by decide)
  exact ⟨rfl, h.2.1, h.2.2.1, h.2.2.2.2.2.2.2.2.2.1⟩
